import Mathlib

/-!
# A verification development for the SUDEPmonitor repository

Shallow embedding of the core computational parts of `sudep.py`, `sudep_HRV.py`
and `sudep_pdf.py`:

* date-token sorting (`_date_sort`, `get_session_dates_for` in `sudep.py`),
* the local user cache (`save` / `load` / `get_user` in `sudep.py`),
* profile construction (`Profile.__init__`, `_get_individual_profile_for`),
* the sliding-window statistics (`SD`, `CSI` in `sudep_HRV.py`;
  `windowed_sample_variance`, `mark_high_var`, `find_high_variance` in `sudep_pdf.py`).

Machine floats are modelled by exact arithmetic: the rational numbers for the
variance-level computations and the reals wherever `numpy` takes a square root.
Python dictionaries are modelled by association lists with distinct keys, and the
`Users/` pickle directory by a partial map from file name to the stored record
(serialization is modelled as the identity, i.e. `cPickle` round-trips values).
Python exceptions (`KeyError`) are modelled with `Except`.
-/

namespace SUDEP

/-! ## Date tokens and `_date_sort` (`sudep.py`, lines 388-401) -/

/-- Python slice `s[i:j]` (for `0 ≤ i ≤ j`) on a list of characters. -/
def pySlice (i j : ℕ) (s : List Char) : List Char := (s.drop i).take (j - i)

/-- The sort key of `_date_sort` in `sudep.py`:
`lambda x: (x[4:6], x[2:4], x[0:2], x[6:8], x[8:10], x[10:12])`,
i.e. the six two-character fields of a `ddMMyyhhmmss` token reordered as
(year, month, day, hour, minute, second).  Python compares these tuples of
strings lexicographically and the component strings lexicographically as well,
which is exactly the lexicographic order on `List (List Char)`. -/
def dateSortKey (x : List Char) : List (List Char) :=
  [pySlice 4 6 x, pySlice 2 4 x, pySlice 0 2 x, pySlice 6 8 x, pySlice 8 10 x,
    pySlice 10 12 x]

/-- The order `dates.sort(key=...)` sorts by in `_date_sort`. -/
def dateLe (a b : List Char) : Prop := dateSortKey a ≤ dateSortKey b

instance : DecidableRel dateLe := fun a b =>
  inferInstanceAs (Decidable (dateSortKey a ≤ dateSortKey b))

instance : IsTotal (List Char) dateLe := ⟨fun a b => le_total (dateSortKey a) (dateSortKey b)⟩

instance : IsTrans (List Char) dateLe :=
  ⟨fun _ _ _ h1 h2 => le_trans (a := dateSortKey _) h1 h2⟩

/-- `_date_sort(dates)`: Python's stable `list.sort` with the key above, modelled
as a stable sort by `dateLe`. -/
def date_sort (dates : List (List Char)) : List (List Char) :=
  dates.insertionSort dateLe

/-- A well-formed 12-digit date token `ddMMyyhhmmss`. -/
def IsDateToken (s : List Char) : Prop := s.length = 12 ∧ ∀ c ∈ s, c.isDigit

instance : DecidablePred IsDateToken := fun s =>
  inferInstanceAs (Decidable (s.length = 12 ∧ ∀ c ∈ s, c.isDigit))

/-- The six slices taken by `dateSortKey` jointly determine a 12-character token:
the key function is injective on 12-character strings. -/
lemma dateSortKey_inj {a b : List Char} (ha : a.length = 12) (hb : b.length = 12)
    (h : dateSortKey a = dateSortKey b) : a = b := by
  rcases a with _ | ⟨a0, a⟩; · simp at ha
  rcases a with _ | ⟨a1, a⟩; · simp at ha
  rcases a with _ | ⟨a2, a⟩; · simp at ha
  rcases a with _ | ⟨a3, a⟩; · simp at ha
  rcases a with _ | ⟨a4, a⟩; · simp at ha
  rcases a with _ | ⟨a5, a⟩; · simp at ha
  rcases a with _ | ⟨a6, a⟩; · simp at ha
  rcases a with _ | ⟨a7, a⟩; · simp at ha
  rcases a with _ | ⟨a8, a⟩; · simp at ha
  rcases a with _ | ⟨a9, a⟩; · simp at ha
  rcases a with _ | ⟨a10, a⟩; · simp at ha
  rcases a with _ | ⟨a11, a⟩; · simp at ha
  rcases a with _ | ⟨a12, a⟩
  swap; · simp at ha
  rcases b with _ | ⟨b0, b⟩; · simp at hb
  rcases b with _ | ⟨b1, b⟩; · simp at hb
  rcases b with _ | ⟨b2, b⟩; · simp at hb
  rcases b with _ | ⟨b3, b⟩; · simp at hb
  rcases b with _ | ⟨b4, b⟩; · simp at hb
  rcases b with _ | ⟨b5, b⟩; · simp at hb
  rcases b with _ | ⟨b6, b⟩; · simp at hb
  rcases b with _ | ⟨b7, b⟩; · simp at hb
  rcases b with _ | ⟨b8, b⟩; · simp at hb
  rcases b with _ | ⟨b9, b⟩; · simp at hb
  rcases b with _ | ⟨b10, b⟩; · simp at hb
  rcases b with _ | ⟨b11, b⟩; · simp at hb
  rcases b with _ | ⟨b12, b⟩
  swap; · simp at hb
  simp only [dateSortKey, pySlice, List.drop, List.take, List.cons.injEq, and_true,
    List.nil_eq, and_imp] at h
  obtain ⟨⟨h4, h5⟩, ⟨h2, h3⟩, ⟨h0, h1⟩, ⟨h6, h7⟩, ⟨h8, h9⟩, h10, h11⟩ := h
  subst h0; subst h1; subst h2; subst h3; subst h4; subst h5
  subst h6; subst h7; subst h8; subst h9; subst h10; subst h11
  rfl

/-- C5: date-token sorting is a total order on the reordered two-character
fields (year, month, day, hour, minute, second): antisymmetry on 12-digit
tokens, transitivity, and idempotence of sorting. -/
theorem date_sort_total_order :
    (∀ a b, IsDateToken a → IsDateToken b → dateLe a b → dateLe b a → a = b) ∧
    (∀ a b c, dateLe a b → dateLe b c → dateLe a c) ∧
    (∀ L, date_sort (date_sort L) = date_sort L) := by
  refine ⟨fun a b ha hb hab hba => dateSortKey_inj ha.1 hb.1 (le_antisymm hab hba),
    fun a b c h1 h2 => le_trans (a := dateSortKey a) h1 h2, fun L => ?_⟩
  exact List.Sorted.insertionSort_eq (List.sorted_insertionSort dateLe L)

/-- Concrete instance of `date_sort_total_order`: antisymmetry applied to a
concrete pair of equal 12-digit tokens, and idempotence of sorting on a concrete
two-token list that spans a year boundary. -/
theorem date_sort_total_order_witness :
    ("121023080910".toList = "121023080910".toList) ∧
    date_sort (date_sort ["010124000000".toList, "311223235959".toList]) =
      date_sort ["010124000000".toList, "311223235959".toList] :=
  ⟨date_sort_total_order.1 _ _ (by decide) (by decide) (by decide) (by decide),
    date_sort_total_order.2.2 _⟩

/-! ## Session-date listing (`get_session_dates_for`, `sudep.py` lines 359-373)

`get_session_dates_for` downloads the shallow key listing of the user's node,
executes `del user_dates['MetaData']` (a Python `del` on a missing key raises
`KeyError`), and returns `_date_sort(user_dates.keys())` in the default
`readable=False` branch.  The remote listing is modelled by its list of keys
(dictionary keys are distinct). -/

/-- The reserved metadata key `'MetaData'`. -/
def MetaDataKey : List Char := "MetaData".toList

/-- `get_session_dates_for` (default `readable=False` branch), modelled on the
key listing: `del user_dates['MetaData']` raises `KeyError` when the key is
absent, otherwise the remaining keys are returned sorted by `_date_sort`. -/
def get_session_dates_for (user_dates : List (List Char)) :
    Except (List Char) (List (List Char)) :=
  if MetaDataKey ∈ user_dates then
    Except.ok (date_sort (user_dates.erase MetaDataKey))
  else
    Except.error MetaDataKey

/-- A December '23 token (`ddMMyyhhmmss` for 31 Dec 2023, 23:59:59). -/
def dec23Token : List Char := "311223235959".toList

/-- A January '24 token (`ddMMyyhhmmss` for 01 Jan 2024, 00:00:00). -/
def jan24Token : List Char := "010124000000".toList

/-- C9: on a key listing that contains the reserved `'MetaData'` key, the
session-date listing returns the dates with the reserved key removed, sorted
chronologically; chronological means the December '23 token sorts strictly
before the January '24 token even though raw string order puts it after. -/
theorem session_dates_excludes_reserved_and_sorted :
    ∀ keys : List (List Char), keys.Nodup → MetaDataKey ∈ keys →
      ∀ r, get_session_dates_for keys = Except.ok r →
        MetaDataKey ∉ r ∧ r.Sorted dateLe ∧
          (dateLe dec23Token jan24Token ∧ ¬dateLe jan24Token dec23Token) := by
  intro keys hnd hmem r hr
  rw [get_session_dates_for, if_pos hmem] at hr
  obtain rfl : date_sort (keys.erase MetaDataKey) = r := by
    cases hr; rfl
  refine ⟨fun hin => ?_, List.sorted_insertionSort dateLe _, by decide, by decide⟩
  exact hnd.not_mem_erase ((List.mem_insertionSort dateLe).1 hin)

/-- Concrete instance of `session_dates_excludes_reserved_and_sorted`: a listing
with the reserved key and two dates across a year boundary. -/
theorem session_dates_excludes_reserved_and_sorted_witness :
    MetaDataKey ∉ [dec23Token, jan24Token] ∧
      List.Sorted dateLe [dec23Token, jan24Token] ∧
      (dateLe dec23Token jan24Token ∧ ¬dateLe jan24Token dec23Token) :=
  session_dates_excludes_reserved_and_sorted
    [jan24Token, MetaDataKey, dec23Token] (by decide) (by decide)
    [dec23Token, jan24Token] (by rfl)

/-- C10: the reserved key's presence is a precondition for every successful
session-date listing; on a listing without `'MetaData'`, the unconditional
`del user_dates['MetaData']` raises `KeyError` instead of returning dates. -/
theorem session_dates_metadata_required :
    (∀ keys : List (List Char), MetaDataKey ∉ keys →
        get_session_dates_for keys = Except.error MetaDataKey) ∧
    (∀ (keys : List (List Char)) r, get_session_dates_for keys = Except.ok r →
        MetaDataKey ∈ keys) := by
  constructor
  · intro keys h
    rw [get_session_dates_for, if_neg h]
  · intro keys r h
    by_contra hmem
    rw [get_session_dates_for, if_neg hmem] at h
    cases h

/-- Concrete instance of `session_dates_metadata_required`: a listing of two
session dates with no `'MetaData'` entry makes the call fail. -/
theorem session_dates_metadata_required_witness :
    get_session_dates_for [dec23Token, jan24Token] = Except.error MetaDataKey :=
  session_dates_metadata_required.1 [dec23Token, jan24Token] (by decide)

/-! ## The data model and the local user cache (`sudep.py`, lines 73-137, 211-219)

The remote JSON payloads that the cache stores are opaque to the cache logic;
profile fields and per-session blobs are modelled as strings, events and
sessions as association lists.  `cPickle.dump`/`cPickle.load` round-trip the
stored value, so a pickle file is modelled as the `User` value it contains, and
the `Users/` directory as a partial map from file name to stored value. -/

/-- `Profile`: the four profile fields extracted by `Profile.__init__`. -/
structure Profile where
  dob : String
  gender : String
  height : String
  weight : String
deriving DecidableEq

/-- `User`: the five attributes set by `User.__init__`. -/
structure User where
  user_name : String
  profile : Profile
  events : List (String × String)
  sessions : List (String × String)
  dates : List (List Char)
deriving DecidableEq

/-- The `Users/` directory: maps a user name to the pickled `User` it stores. -/
def FileSys : Type := String → Option User

/-- `_is_file_in_directory(name)`: does `Users/` hold a file for `name`? -/
def is_file_in_directory (fs : FileSys) (name : String) : Bool := (fs name).isSome

/-- `save(user, update=True)`: when `update == False` and the file already
exists the call returns before writing; otherwise the pickle for
`user.user_name` is (over)written. -/
def save (fs : FileSys) (user : User) (update : Bool := true) : FileSys :=
  if update = false ∧ is_file_in_directory fs user.user_name then fs
  else fun name => if name = user.user_name then some user else fs name

/-- `load(user_name)`: unpickle the saved file for `user_name`. -/
def load (fs : FileSys) (user_name : String) : Option User := fs user_name

/-- `get_user(user_name, reload=False)`: serve the saved file when it exists
and `reload` is false; otherwise, when the name is in the user list, build the
`User` from the remote database (abstracted as `build`), save it and return it;
otherwise print a message and return `None`.  Returns the result together with
the directory state after the call. -/
def get_user (fs : FileSys) (user_list : List String) (build : String → User)
    (user_name : String) (reload : Bool := false) : Option User × FileSys :=
  if is_file_in_directory fs user_name ∧ reload = false then
    (load fs user_name, fs)
  else if user_name ∈ user_list then
    let user := build user_name
    (some user, save fs user)
  else
    (none, fs)

/-- C6: storing a user record and then fetching its user id with
`reload=False` returns the stored record unchanged (field-by-field, since
`User` equality is structural). -/
theorem store_then_fetch_roundtrip (fs : FileSys) (user_list : List String)
    (build : String → User) (u : User) :
    (get_user (save fs u) user_list build u.user_name false).1 = some u := by
  have hsave : save fs u true u.user_name = some u := by
    simp [save, is_file_in_directory]
  simp [get_user, load, is_file_in_directory, hsave]

/-- C7: when a saved file for the user already exists, `save` with
`update=False` is a no-op: the directory (hence the durable bytes of the
existing entry) is unchanged. -/
theorem save_no_update_is_noop (fs : FileSys) (u : User)
    (h : is_file_in_directory fs u.user_name = true) :
    save fs u false = fs := by
  rw [save, if_pos ⟨rfl, h⟩]

/-- A concrete user record used to instantiate the cache theorems. -/
def sampleUser : User :=
  { user_name := "SM36", profile := ⟨"", "", "", ""⟩, events := [], sessions := [],
    dates := [] }

/-- A concrete directory state that already holds `sampleUser`. -/
def sampleFs : FileSys := fun name => if name = "SM36" then some sampleUser else none

/-- Concrete instance of `save_no_update_is_noop`: `sampleFs` already holds a
file for `SM36`, so an `update=False` save leaves it unchanged. -/
theorem save_no_update_is_noop_witness : save sampleFs sampleUser false = sampleFs :=
  save_no_update_is_noop sampleFs sampleUser (by rfl)

/-! ## Profile construction (`sudep.py`, lines 211-219 and 249-256)

`_get_individual_profile_for` normalizes a `None` JSON body to `{}`;
`Profile.__init__` then subscripts the returned dictionary with the four fixed
field names, and Python dictionary subscripting raises `KeyError` on a missing
key. -/

/-- Python `d[k]` on a dictionary: the value when the key is present, a
`KeyError` naming the key otherwise. -/
def dictGet (d : List (String × String)) (k : String) : Except String String :=
  match d.lookup k with
  | some v => Except.ok v
  | none => Except.error k

/-- `_get_individual_profile_for`: a missing (`None`) profile response is
normalized to the empty dictionary. -/
def get_individual_profile_for (resp : Option (List (String × String))) :
    List (String × String) :=
  resp.getD []

/-- `Profile.__init__` field extraction: subscripts the profile dictionary with
the four fixed keys in source order, propagating the first `KeyError`. -/
def Profile.init (profile : List (String × String)) : Except String Profile := do
  let dob ← dictGet profile "Date of Birth"
  let gender ← dictGet profile "Gender"
  let height ← dictGet profile "Height (m)"
  let weight ← dictGet profile "Weight (kg)"
  return ⟨dob, gender, height, weight⟩

/-- C8 counterexample: on an empty profile response the profile construction
does not succeed with defaulted fields — it does not succeed at all: the first
subscript `profile['Date of Birth']` raises `KeyError`. -/
theorem profile_empty_response_not_ok :
    ¬∃ p : Profile, Profile.init (get_individual_profile_for none) = Except.ok p := by
  rintro ⟨p, hp⟩
  rw [show Profile.init (get_individual_profile_for none) =
    Except.error "Date of Birth" from rfl] at hp
  exact Except.noConfusion hp

/-- C8 amended: on an empty remote profile response, profile construction fails
with a `KeyError` on the first field name `'Date of Birth'` instead of
defaulting the fields. -/
theorem profile_empty_response_keyerror :
    Profile.init (get_individual_profile_for none) = Except.error "Date of Birth" := rfl

/-! ## Sliding-window statistics

`SD` (`sudep_HRV.py`, lines 34-68) and `windowed_sample_variance`
(`sudep_pdf.py`, lines 120-124) both window a signal with the index matrix
`np.sum(np.mgrid[0:n, 0:w], axis=0)` whose entry `(i, j)` is `i + j`, where
`n = len(signal) - w + 1` is computed as a Python `int` (possibly `≤ 0`, in
which case `np.mgrid[0:n]` is empty and the whole pipeline silently produces
empty output).  Signal values are modelled over `ℚ`; the square root taken by
`np.std` lives in `ℝ`. -/

/-- `n = len(signal) - w + 1`, computed in `ℤ` as Python does; `.toNat` clamps
non-positive `n` to an empty index range exactly as `np.mgrid[0:n]` is empty
for `n ≤ 0`. -/
def numWin (N w : ℕ) : ℕ := ((N : ℤ) - w + 1).toNat

/-- `np.sum(np.mgrid[0:n, 0:w], axis=0)`: the `n × w` index matrix with entry
`(i, j)` equal to `i + j`; row `i` lists the indices of window `i`. -/
def windowIdx (n w : ℕ) : List (List ℕ) :=
  (List.range n).map fun i => (List.range w).map fun j => i + j

/-- `np.transpose(np.sum(np.mgrid[0:n, 0:w], axis=0))`: the transposed `w × n`
index matrix, with entry `(j, i)` equal to `i + j`; column `i` lists the
indices of window `i`. -/
def windowIdxT (n w : ℕ) : List (List ℕ) :=
  (List.range w).map fun j => (List.range n).map fun i => i + j

/-- Fancy indexing `signal[indices]` of a 1-D array by a 2-D index matrix
(all indices produced by the window matrices are in range). -/
def fancyIndex (signal : List ℚ) (indices : List (List ℕ)) : List (List ℚ) :=
  indices.map fun row => row.map fun idx => signal.getD idx 0

/-- `windowed_beats = beats[np.sum(np.mgrid[0:n, 0:num_points], axis=0)]`
in `SD`: the `n × num_points` array whose row `i` is window `i`. -/
def windowedBeats (beats : List ℚ) (num_points : ℕ) : List (List ℚ) :=
  fancyIndex beats (windowIdx (numWin beats.length num_points) num_points)

/-- `np.mean` of a 1-D array.  (The mean of an empty array, `nan` in numpy, is
the junk value `0 / 0 = 0` here; no claim evaluates it.) -/
def npMean (l : List ℚ) : ℚ := l.sum / l.length

/-- `np.var` of a 1-D array with the default `ddof=0`: the mean of the squared
deviations from the mean. -/
def npVar (l : List ℚ) : ℚ := npMean (l.map fun x => (x - npMean l) ^ 2)

/-- `np.diff` of a 1-D array: `l[1:] - l[:-1]`, i.e. `d[k] = l[k+1] - l[k]`. -/
def npDiff (l : List ℚ) : List ℚ := List.zipWith (fun a b => a - b) (l.drop 1) l

/-- `x = windowed_beats[0:n-1]` in `SD`. -/
def SDx (beats : List ℚ) (num_points : ℕ) : List (List ℚ) :=
  (windowedBeats beats num_points).take (numWin beats.length num_points - 1)

/-- `y = windowed_beats[1:n]` in `SD` (the array has `n` rows, so this drops
the first row). -/
def SDy (beats : List ℚ) (num_points : ℕ) : List (List ℚ) :=
  (windowedBeats beats num_points).drop 1

/-- The squared `SD1` series of `SD`, before the square root: row `i` of
`(x - y) + np.transpose([meany - meanx])` is `x_i - y_i` shifted elementwise by
the scalar `mean(y_i) - mean(x_i)`, and `np.std(..., axis=1)` squared is the
row-wise population variance. -/
def SD1var (beats : List ℚ) (num_points : ℕ) : List ℚ :=
  ((SDx beats num_points).zip (SDy beats num_points)).map fun p =>
    npVar ((p.1.zip p.2).map fun q => q.1 - q.2 + (npMean p.2 - npMean p.1))

/-- The squared `SD2` series of `SD`, before the square root: row `i` of
`(x + y) - np.transpose([meanx + meany])`. -/
def SD2var (beats : List ℚ) (num_points : ℕ) : List ℚ :=
  ((SDx beats num_points).zip (SDy beats num_points)).map fun p =>
    npVar ((p.1.zip p.2).map fun q => q.1 + q.2 - (npMean p.1 + npMean p.2))

/-- `SD1` of `SD` in `sudep_HRV.py`: `np.std((x - y) + mean, axis=1) / 2.0**0.5`. -/
noncomputable def SD1 (beats : List ℚ) (num_points : ℕ) : List ℝ :=
  (SD1var beats num_points).map fun v : ℚ => Real.sqrt (v : ℝ) / Real.sqrt 2

/-- `SD2` of `SD` in `sudep_HRV.py`: `np.std((x + y) - mean, axis=1) / 2.0**0.5`. -/
noncomputable def SD2 (beats : List ℚ) (num_points : ℕ) : List ℝ :=
  (SD2var beats num_points).map fun v : ℚ => Real.sqrt (v : ℝ) / Real.sqrt 2

/-- The beat-interval input of `CSI`: `60.0/heart_data['heart_rate']` when
`from_watch` is true, otherwise `heart_data` itself. -/
def CSIbeats (heart_data : List ℚ) (from_watch : Bool) : List ℚ :=
  if from_watch then heart_data.map fun h => 60 / h else heart_data

/-- The pair of clamped series produced by the assignments
`SD2[SD1 == 0] = 1` and `SD1[SD1 == 0] = 1` in `CSI`:
first component the clamped `SD2`, second the clamped `SD1`. -/
noncomputable def clampSD (sd1 sd2 : List ℝ) : List ℝ × List ℝ :=
  ((sd1.zip sd2).map fun p => if p.1 = 0 then 1 else p.2,
    sd1.map fun s => if s = 0 then 1 else s)

/-- `CSI(heart_data, num_points, from_watch)` from `sudep_HRV.py`: compute
`SD1, SD2`, clamp both to 1 wherever `SD1` vanishes, return `SD2/SD1`
elementwise. -/
noncomputable def CSI (heart_data : List ℚ) (num_points : ℕ) (from_watch : Bool) :
    List ℝ :=
  let beats := CSIbeats heart_data from_watch
  let c := clampSD (SD1 beats num_points) (SD2 beats num_points)
  (c.1.zip c.2).map fun p => p.1 / p.2

/-- `windowed_sample_variance(signal, window)` from `sudep_pdf.py`.
`signal[indices]` with the transposed index matrix is the `w × n` array `A`
with `A[j][i] = signal[i + j]` (column `i` is window `i`); `np.diff` acts
along the default last axis, giving the `w × (n-1)` array `D` with
`D[j][i] = signal[i+j+1] - signal[i+j]`; `np.var(..., axis=0)` takes the
population variance of each of the `n - 1` columns of `D`. -/
def windowed_sample_variance (signal : List ℚ) (window : ℕ) : List ℚ :=
  let n := numWin signal.length window
  let D := (fancyIndex signal (windowIdxT n window)).map npDiff
  (List.range (n - 1)).map fun i => npVar (D.map fun row => row.getD i 0)

/-- `find_high_variance(var, THRESH=1)`: elementwise strict `var > THRESH`. -/
def find_high_variance (var : List ℚ) (THRESH : ℚ := 1) : List Bool :=
  var.map fun v => decide (v > THRESH)

/-- The boolean mask built by `mark_high_var` in `sudep_pdf.py`:
`np.append(np.zeros(window-1), find_high_variance(var)).astype(bool)`, i.e. a
block of `window - 1` entries of `False` followed by the thresholded windowed
variance series.  The threshold is a parameter here; `mark_high_var` itself
calls `find_high_variance` with its default `THRESH=1`. -/
def mark_high_var_mask (signal : List ℚ) (window : ℕ) (THRESH : ℚ := 1) :
    List Bool :=
  List.replicate (window - 1) false ++
    find_high_variance (windowed_sample_variance signal window) THRESH

/-! ### Structural lemmas about the windowing -/

lemma numWin_of_le {N w : ℕ} (h : w ≤ N) : numWin N w = N - w + 1 := by
  unfold numWin; omega

lemma numWin_of_lt {N w : ℕ} (h : N < w) : numWin N w = 0 := by
  unfold numWin; omega

lemma windowedBeats_eq (beats : List ℚ) (w : ℕ) :
    windowedBeats beats w =
      (List.range (numWin beats.length w)).map fun i =>
        (List.range w).map fun j => beats.getD (i + j) 0 := by
  simp only [windowedBeats, fancyIndex, windowIdx, List.map_map]
  apply List.map_congr_left
  intro i _
  simp [Function.comp]

lemma windowedBeats_length (beats : List ℚ) (w : ℕ) :
    (windowedBeats beats w).length = numWin beats.length w := by
  rw [windowedBeats_eq]; simp

lemma windowedBeats_getD (beats : List ℚ) (w i : ℕ) (h : i < numWin beats.length w) :
    (windowedBeats beats w).getD i [] =
      (List.range w).map fun j => beats.getD (i + j) 0 := by
  rw [windowedBeats_eq,
    List.getD_eq_getElem _ _ (by simpa using h)]
  simp

lemma windowedBeats_of_short {s : List ℚ} {w : ℕ} (h : s.length < w) :
    windowedBeats s w = [] := by
  rw [windowedBeats_eq, numWin_of_lt h]
  simp

lemma wsv_of_short {s : List ℚ} {w : ℕ} (h : s.length < w) :
    windowed_sample_variance s w = [] := by
  simp [windowed_sample_variance, numWin_of_lt h]

lemma wsv_length (s : List ℚ) (w : ℕ) :
    (windowed_sample_variance s w).length = numWin s.length w - 1 := by
  simp [windowed_sample_variance]

lemma npDiff_map_range (g : ℕ → ℚ) (n : ℕ) :
    npDiff ((List.range n).map g) = (List.range (n - 1)).map fun k => g (k + 1) - g k := by
  apply List.ext_getElem
  · simp [npDiff]
  · intro k h1 h2
    simp only [npDiff, List.getElem_zipWith, List.getElem_drop, List.getElem_map,
      List.getElem_range]
    congr 2
    omega

/-- The windowed sample variance in closed form: value `i` is the population
variance of the `w` consecutive first differences starting at index `i`. -/
lemma windowed_sample_variance_eq (s : List ℚ) (w : ℕ) :
    windowed_sample_variance s w =
      (List.range (numWin s.length w - 1)).map fun i =>
        npVar ((List.range w).map fun j => s.getD (i + j + 1) 0 - s.getD (i + j) 0) := by
  unfold windowed_sample_variance
  apply List.map_congr_left
  intro i hi
  simp only [List.mem_range] at hi
  congr 1
  simp only [fancyIndex, windowIdxT, List.map_map]
  apply List.map_congr_left
  intro j hj
  simp only [List.mem_range] at hj
  simp only [Function.comp_def, List.map_map]
  rw [npDiff_map_range,
    List.getD_eq_getElem _ _ (by simpa using hi)]
  simp only [List.getElem_map, List.getElem_range]
  congr 2
  omega

/-! ### C1: window count and coverage; behaviour on short signals -/

/-- C1 counterexample: on a two-sample signal with window size 3 neither `SD`
nor `windowed_sample_variance` fails — there is no error path for short
signals in the code at all; both silently return empty output (the windowing
is empty, and so are the derived series). -/
theorem short_signal_silently_empty :
    SD1 ([1, 2] : List ℚ) 3 = [] ∧ SD2 ([1, 2] : List ℚ) 3 = [] ∧
      windowed_sample_variance [1, 2] 3 = [] ∧ windowedBeats [1, 2] 3 = [] :=
  ⟨rfl, rfl, rfl, rfl⟩

/-- C1 (amended): for `w ≤ len(signal)` the windowing of `SD` produces exactly
`len(signal) - w + 1` windows, window `i` covering indices `[i, i+w)`, and
column `i` of the transposed index matrix used by `windowed_sample_variance`
lists the same indices `[i, i+w)`; for `len(signal) < w` both computations
silently return empty output instead of failing. -/
theorem sliding_windows_count_and_coverage :
    (∀ (s : List ℚ) (w : ℕ), w ≤ s.length →
      (windowedBeats s w).length = s.length - w + 1 ∧
      ∀ i, i < s.length - w + 1 → (windowedBeats s w).getD i [] = (s.drop i).take w) ∧
    (∀ n w i : ℕ, i < n →
      ((windowIdxT n w).map fun row => row.getD i 0) =
        (List.range w).map fun j => i + j) ∧
    (∀ (s : List ℚ) (w : ℕ), s.length < w →
      windowedBeats s w = [] ∧ windowed_sample_variance s w = []) := by
  refine ⟨fun s w h => ⟨by rw [windowedBeats_length, numWin_of_le h], fun i hi => ?_⟩,
    fun n w i h => ?_, fun s w h => ⟨windowedBeats_of_short h, wsv_of_short h⟩⟩
  · rw [windowedBeats_getD s w i (by rw [numWin_of_le h]; omega)]
    apply List.ext_getElem
    · simp
      omega
    · intro j hj1 hj2
      simp only [List.getElem_map, List.getElem_range, List.getElem_take,
        List.getElem_drop]
      rw [List.getD_eq_getElem _ _ (by simp at hj1; omega)]
  · simp only [windowIdxT, List.map_map]
    apply List.map_congr_left
    intro j hj
    simp only [List.mem_range] at hj
    simp only [Function.comp_def]
    rw [List.getD_eq_getElem _ _ (by simpa using h)]
    simp

/-- Concrete instance of `sliding_windows_count_and_coverage`: a three-sample
signal with window size 2, and a one-sample signal shorter than its window. -/
theorem sliding_windows_count_and_coverage_witness :
    (windowedBeats [1, 2, 3] 2).length = 2 ∧
      (windowedBeats [1, 2, 3] 2).getD 0 [] = (([1, 2, 3] : List ℚ).drop 0).take 2 ∧
      ((windowIdxT 2 2).map fun row => row.getD 0 0) =
        (List.range 2).map (fun j => 0 + j) ∧
      windowedBeats [1] 2 = [] ∧ windowed_sample_variance [1] 2 = [] :=
  ⟨(sliding_windows_count_and_coverage.1 [1, 2, 3] 2 (by decide)).1,
    (sliding_windows_count_and_coverage.1 [1, 2, 3] 2 (by decide)).2 0 (by decide),
    sliding_windows_count_and_coverage.2.1 2 2 0 (by decide),
    (sliding_windows_count_and_coverage.2.2 [1] 2 (by decide)).1,
    (sliding_windows_count_and_coverage.2.2 [1] 2 (by decide)).2⟩

/-! ### C2: the high-variance mask -/

/-- C2 counterexample: for the five-sample signal `[0,0,0,0,0]` and window
size 2 the mask built by `mark_high_var` has length 4, not 5: `np.diff` acts
along the window axis, so the variance series has `len - w` entries and the
padded mask has `len - 1` entries, one short of the signal length. -/
theorem mask_length_counterexample :
    ¬(mark_high_var_mask [0, 0, 0, 0, 0] 2 1).length =
        ([0, 0, 0, 0, 0] : List ℚ).length := by
  intro h
  rw [mark_high_var_mask, List.length_append, List.length_replicate,
    find_high_variance, List.length_map, wsv_length] at h
  simp only [numWin, List.length_cons, List.length_nil] at h
  omega

/-- C2 (amended): for `1 ≤ w ≤ len(signal)` and any threshold `t`, the mask is
one entry shorter than the signal (`len - 1`), its first `w - 1` entries are
false, and entry `w - 1 + i` holds exactly when windowed sample variance `i`
strictly exceeds `t`. -/
theorem mark_high_var_mask_spec :
    ∀ (s : List ℚ) (w : ℕ) (t : ℚ), 1 ≤ w → w ≤ s.length →
      (mark_high_var_mask s w t).length = s.length - 1 ∧
      (∀ i, i < w - 1 → (mark_high_var_mask s w t).getD i true = false) ∧
      (∀ i, i < s.length - w →
        (mark_high_var_mask s w t).getD (w - 1 + i) false =
          decide ((windowed_sample_variance s w).getD i 0 > t)) := by
  intro s w t hw hws
  have hlen : (windowed_sample_variance s w).length = s.length - w := by
    rw [wsv_length, numWin_of_le hws]
    omega
  refine ⟨?_, fun i hi => ?_, fun i hi => ?_⟩
  · simp only [mark_high_var_mask, List.length_append, List.length_replicate,
      find_high_variance, List.length_map, hlen]
    omega
  · rw [mark_high_var_mask,
      List.getD_eq_getElem _ _
        (by simp only [List.length_append, List.length_replicate,
          find_high_variance, List.length_map, hlen]; omega),
      List.getElem_append_left (by simp only [List.length_replicate]; omega)]
    simp
  · rw [mark_high_var_mask,
      List.getD_eq_getElem _ _
        (by simp only [List.length_append, List.length_replicate,
          find_high_variance, List.length_map, hlen]; omega),
      List.getElem_append_right (by simp only [List.length_replicate]; omega)]
    simp only [find_high_variance, List.length_replicate, List.getElem_map,
      Nat.add_sub_cancel_left]
    rw [List.getD_eq_getElem _ _ (by rw [hlen]; omega)]

/-- Concrete instance of `mark_high_var_mask_spec` on the signal
`[0,0,0,0,0]` with window size 2 and threshold 1. -/
theorem mark_high_var_mask_spec_witness :
    (mark_high_var_mask [0, 0, 0, 0, 0] 2 1).length =
        ([0, 0, 0, 0, 0] : List ℚ).length - 1 ∧
      (mark_high_var_mask [0, 0, 0, 0, 0] 2 1).getD 0 true = false ∧
      (mark_high_var_mask [0, 0, 0, 0, 0] 2 1).getD 1 false =
        decide ((windowed_sample_variance [0, 0, 0, 0, 0] 2).getD 0 0 > (1 : ℚ)) :=
  ⟨(mark_high_var_mask_spec [0, 0, 0, 0, 0] 2 1 (by decide) (by decide)).1,
    (mark_high_var_mask_spec [0, 0, 0, 0, 0] 2 1 (by decide) (by decide)).2.1 0 (by decide),
    (mark_high_var_mask_spec [0, 0, 0, 0, 0] 2 1 (by decide) (by decide)).2.2 0 (by decide)⟩

/-! ### C3: the SD1/SD2 formulas

The spec states the per-window formulas over the consecutive-pair sub-signals
`x = beats[0:n-1]`, `y = beats[1:n]`, "each itself windowed by `window_size`",
and prescribes the sample standard deviation (`ddof=1`).  The source windows
first and then pairs consecutive windows, and `np.std` defaults to the
population standard deviation (`ddof=0`). -/

/-- Modelled from the spec (§4.4): sample variance with `ddof = 1`
(`np.var(..., ddof=1)`), the square of the spec's sample standard deviation. -/
def sampleVar (l : List ℚ) : ℚ :=
  (l.map fun x => (x - npMean l) ^ 2).sum / ((l.length : ℚ) - 1)

/-- Modelled from the spec (§4.4): the sub-signal `x = beats[0:n-1]`, itself
windowed by `window_size`. -/
def spec_x (beats : List ℚ) (w : ℕ) : List (List ℚ) := windowedBeats beats.dropLast w

/-- Modelled from the spec (§4.4): the sub-signal `y = beats[1:n]`, itself
windowed by `window_size`. -/
def spec_y (beats : List ℚ) (w : ℕ) : List (List ℚ) := windowedBeats (beats.drop 1) w

/-- Modelled from the spec (§4.4), squared standard deviations with the spec's
`ddof = 1`: per window `i`, `sampleVar((x_i - y_i) + (meany_i - meanx_i))`. -/
def spec_SD1_sample_var (beats : List ℚ) (w : ℕ) : List ℚ :=
  ((spec_x beats w).zip (spec_y beats w)).map fun p =>
    sampleVar ((p.1.zip p.2).map fun q => q.1 - q.2 + (npMean p.2 - npMean p.1))

/-- Modelled from the spec (§4.4): `SD1_i = std((x_i - y_i) + (meany_i -
meanx_i)) / sqrt 2` with the spec's sample standard deviation (`ddof = 1`). -/
noncomputable def spec_SD1_sample (beats : List ℚ) (w : ℕ) : List ℝ :=
  (spec_SD1_sample_var beats w).map fun v : ℚ => Real.sqrt (v : ℝ) / Real.sqrt 2

/-- The spec's SD1 formula with the population standard deviation (`ddof = 0`)
the source actually uses, squared. -/
def spec_SD1_pop_var (beats : List ℚ) (w : ℕ) : List ℚ :=
  ((spec_x beats w).zip (spec_y beats w)).map fun p =>
    npVar ((p.1.zip p.2).map fun q => q.1 - q.2 + (npMean p.2 - npMean p.1))

/-- The spec's SD1 formula with the population standard deviation. -/
noncomputable def spec_SD1_pop (beats : List ℚ) (w : ℕ) : List ℝ :=
  (spec_SD1_pop_var beats w).map fun v : ℚ => Real.sqrt (v : ℝ) / Real.sqrt 2

/-- The spec's SD2 formula with the population standard deviation, squared:
per window `i`, `npVar((x_i + y_i) - (meanx_i + meany_i))`. -/
def spec_SD2_pop_var (beats : List ℚ) (w : ℕ) : List ℚ :=
  ((spec_x beats w).zip (spec_y beats w)).map fun p =>
    npVar ((p.1.zip p.2).map fun q => q.1 + q.2 - (npMean p.1 + npMean p.2))

/-- The spec's SD2 formula with the population standard deviation. -/
noncomputable def spec_SD2_pop (beats : List ℚ) (w : ℕ) : List ℝ :=
  (spec_SD2_pop_var beats w).map fun v : ℚ => Real.sqrt (v : ℝ) / Real.sqrt 2

/-- `x = windowed_beats[0:n-1]` is exactly the spec's "window `beats[0:-1]`":
dropping the last window equals windowing the signal with its last sample
dropped. -/
lemma SDx_eq_spec_x (beats : List ℚ) (w : ℕ) (hw : 1 ≤ w) :
    SDx beats w = spec_x beats w := by
  apply List.ext_getElem
  · simp only [SDx, spec_x, windowedBeats_length, List.length_take,
      List.length_dropLast]
    unfold numWin
    omega
  · intro i h1 h2
    have hi : i < numWin beats.length w - 1 := by
      simp only [SDx, windowedBeats_length, List.length_take] at h1
      omega
    have hiN : i + w ≤ beats.length - 1 := by
      have := hi
      unfold numWin at this
      omega
    have hbx : i < numWin beats.length w := by
      unfold numWin at hi ⊢
      omega
    have hbx2 : i < numWin beats.dropLast.length w := by
      simp only [List.length_dropLast]
      unfold numWin at hi ⊢
      omega
    simp only [SDx, spec_x, List.getElem_take]
    rw [← List.getD_eq_getElem _ ([] : List ℚ), ← List.getD_eq_getElem _ ([] : List ℚ),
      windowedBeats_getD beats w i hbx, windowedBeats_getD beats.dropLast w i hbx2]
    apply List.map_congr_left
    intro j hj
    simp only [List.mem_range] at hj
    have hb1 : i + j < beats.dropLast.length := by
      simp only [List.length_dropLast]
      omega
    have hb2 : i + j < beats.length := by omega
    rw [List.getD_eq_getElem _ _ hb1, List.getD_eq_getElem _ _ hb2, List.getElem_dropLast]

/-- `y = windowed_beats[1:n]` is exactly the spec's "window `beats[1:]`":
dropping the first window equals windowing the signal with its first sample
dropped. -/
lemma SDy_eq_spec_y (beats : List ℚ) (w : ℕ) (hw : 1 ≤ w) :
    SDy beats w = spec_y beats w := by
  apply List.ext_getElem
  · simp only [SDy, spec_y, windowedBeats_length, List.length_drop]
    unfold numWin
    omega
  · intro i h1 h2
    have hi : i < numWin beats.length w - 1 := by
      simp only [SDy, windowedBeats_length, List.length_drop] at h1
      omega
    have hiN : 1 + i + w ≤ beats.length := by
      have := hi
      unfold numWin at this
      omega
    have hby : 1 + i < numWin beats.length w := by
      unfold numWin at hi ⊢
      omega
    have hby2 : i < numWin (List.drop 1 beats).length w := by
      simp only [List.length_drop]
      unfold numWin at hi ⊢
      omega
    simp only [SDy, spec_y, List.getElem_drop]
    rw [← List.getD_eq_getElem _ ([] : List ℚ), ← List.getD_eq_getElem _ ([] : List ℚ),
      windowedBeats_getD beats w (1 + i) hby,
      windowedBeats_getD (List.drop 1 beats) w i hby2]
    apply List.map_congr_left
    intro j hj
    simp only [List.mem_range] at hj
    have hb1 : i + j < (List.drop 1 beats).length := by
      simp only [List.length_drop]
      omega
    have hb2 : 1 + i + j < beats.length := by omega
    rw [List.getD_eq_getElem _ _ hb1, List.getD_eq_getElem _ _ hb2, List.getElem_drop]
    congr 1
    omega

/-- C3 (amended): for every beat-interval sequence and window size `w ≥ 1`,
`SD` returns per window `i` exactly the spec's SD1/SD2 dispersion formulas over
the windowed sub-signals `x`, `y`, but with the population standard deviation
(`np.std` default `ddof=0`), not the sample standard deviation. -/
theorem SD_formulas_population_std (beats : List ℚ) (w : ℕ) (hw : 1 ≤ w) :
    SD1 beats w = spec_SD1_pop beats w ∧ SD2 beats w = spec_SD2_pop beats w := by
  constructor
  · rw [SD1, spec_SD1_pop, SD1var, spec_SD1_pop_var, SDx_eq_spec_x beats w hw,
      SDy_eq_spec_y beats w hw]
  · rw [SD2, spec_SD2_pop, SD2var, spec_SD2_pop_var, SDx_eq_spec_x beats w hw,
      SDy_eq_spec_y beats w hw]

/-- Concrete instance of `SD_formulas_population_std` at the beat-interval
sequence `[0,1,0,1]` with window size 2. -/
theorem SD_formulas_population_std_witness :
    SD1 [0, 1, 0, 1] 2 = spec_SD1_pop [0, 1, 0, 1] 2 ∧
      SD2 [0, 1, 0, 1] 2 = spec_SD2_pop [0, 1, 0, 1] 2 :=
  SD_formulas_population_std [0, 1, 0, 1] 2 (by decide)

/-- C3 counterexample: at the beat intervals `[0,1,0,1]` with window size 2,
window 0 of the code's `SD1` is `√1/√2` (population variance 1) while the
spec's sample-standard-deviation formula gives `√2/√2 = 1`; the two differ, so
the code does not use `ddof=1`. -/
theorem SD1_ddof_counterexample :
    (SD1 [0, 1, 0, 1] 2).getD 0 0 ≠ (spec_SD1_sample [0, 1, 0, 1] 2).getD 0 0 := by
  have hpairs : (SDx [0, 1, 0, 1] 2).zip (SDy [0, 1, 0, 1] 2) =
      [([0, 1], [1, 0]), ([1, 0], [0, 1])] := rfl
  have hspairs : (spec_x [0, 1, 0, 1] 2).zip (spec_y [0, 1, 0, 1] 2) =
      [([0, 1], [1, 0]), ([1, 0], [0, 1])] := rfl
  have h1 : SD1var [0, 1, 0, 1] 2 = [1, 1] := by
    rw [SD1var, hpairs]
    norm_num [npVar, npMean]
  have h2 : spec_SD1_sample_var [0, 1, 0, 1] 2 = [2, 2] := by
    rw [spec_SD1_sample_var, hspairs]
    norm_num [sampleVar, npMean]
  have e1 : (SD1 [0, 1, 0, 1] 2).getD 0 0 = Real.sqrt 1 / Real.sqrt 2 := by
    rw [SD1, h1]
    norm_num
  have e2 : (spec_SD1_sample [0, 1, 0, 1] 2).getD 0 0 = Real.sqrt 2 / Real.sqrt 2 := by
    rw [spec_SD1_sample, h2]
    norm_num
  rw [e1, e2, Real.sqrt_one]
  intro h
  have hgt : (1 : ℝ) < Real.sqrt 2 := by
    have := Real.sqrt_lt_sqrt (by norm_num : (0 : ℝ) ≤ 1) (by norm_num : (1 : ℝ) < 2)
    rwa [Real.sqrt_one] at this
  have hne : Real.sqrt 2 ≠ 0 := by positivity
  rw [div_self hne] at h
  field_simp at h
  linarith

/-! ### C4: the SD1-zero clamp and constant signals -/

lemma npMean_replicate (w : ℕ) (k : ℚ) (hw : 1 ≤ w) :
    npMean (List.replicate w k) = k := by
  have hw0 : (w : ℚ) ≠ 0 := Nat.cast_ne_zero.mpr (by omega)
  rw [npMean, List.sum_replicate, List.length_replicate, nsmul_eq_mul,
    mul_div_cancel_left₀ k hw0]

lemma npVar_replicate_zero (w : ℕ) : npVar (List.replicate w (0 : ℚ)) = 0 := by
  simp [npVar, npMean, List.sum_replicate, List.map_replicate]

lemma windowedBeats_replicate (k : ℚ) (N w : ℕ) :
    windowedBeats (List.replicate N k) w =
      List.replicate (numWin N w) (List.replicate w k) := by
  rw [windowedBeats_eq]
  simp only [List.length_replicate]
  apply List.ext_getElem
  · simp
  · intro i h1 h2
    simp only [List.length_map, List.length_range] at h1
    simp only [List.getElem_map, List.getElem_range, List.getElem_replicate]
    apply List.ext_getElem
    · simp
    · intro j hj1 hj2
      simp only [List.length_map, List.length_range] at hj1
      simp only [List.getElem_map, List.getElem_range]
      have hb : i + j < N := by
        unfold numWin at h1
        omega
      rw [List.getD_eq_getElem _ _ (by simpa using hb), List.getElem_replicate,
        List.getElem_replicate]

lemma SD1var_replicate (k : ℚ) (N w : ℕ) (hw : 1 ≤ w) :
    SD1var (List.replicate N k) w = List.replicate (numWin N w - 1) 0 := by
  rw [SD1var, SDx, SDy, windowedBeats_replicate]
  simp only [List.length_replicate, List.take_replicate, List.drop_replicate,
    List.zip_replicate, List.map_replicate]
  congr 1
  · omega
  · rw [npMean_replicate w k hw, show k - k + (k - k) = 0 by ring]
    exact npVar_replicate_zero (w ⊓ w)

lemma SD2var_replicate (k : ℚ) (N w : ℕ) (hw : 1 ≤ w) :
    SD2var (List.replicate N k) w = List.replicate (numWin N w - 1) 0 := by
  rw [SD2var, SDx, SDy, windowedBeats_replicate]
  simp only [List.length_replicate, List.take_replicate, List.drop_replicate,
    List.zip_replicate, List.map_replicate]
  congr 1
  · omega
  · rw [npMean_replicate w k hw, show k + k - (k + k) = 0 by ring]
    exact npVar_replicate_zero (w ⊓ w)

lemma SD1_replicate (k : ℚ) (N w : ℕ) (hw : 1 ≤ w) :
    SD1 (List.replicate N k) w = List.replicate (numWin N w - 1) 0 := by
  rw [SD1, SD1var_replicate k N w hw, List.map_replicate]
  simp

lemma SD2_replicate (k : ℚ) (N w : ℕ) (hw : 1 ≤ w) :
    SD2 (List.replicate N k) w = List.replicate (numWin N w - 1) 0 := by
  rw [SD2, SD2var_replicate k N w hw, List.map_replicate]
  simp

/-- `CSI` of a perfectly constant beat-interval signal is the all-ones series:
`SD1` and `SD2` are both 0 at every window, the clamp turns both into 1, and
the ratio is 1 everywhere. -/
lemma CSI_replicate (k : ℚ) (N w : ℕ) (hw : 1 ≤ w) :
    CSI (List.replicate N k) w false = List.replicate (numWin N w - 1) 1 := by
  rw [CSI, CSIbeats]
  simp only [Bool.false_eq_true, if_false]
  rw [clampSD, SD1_replicate k N w hw, SD2_replicate k N w hw]
  simp only [List.zip_replicate, min_self, List.map_replicate, if_pos rfl]
  norm_num

/-- C4: wherever `SD1ᵢ = 0`, the clamp `SD2[SD1 == 0] = 1; SD1[SD1 == 0] = 1`
replaces both values with 1 before the ratio `SD2/SD1` is taken; consequently
`CSI` of a perfectly constant beat-interval signal is 1 at every window
index. -/
theorem SD1_zero_clamp_and_constant_CSI :
    (∀ (beats : List ℚ) (w : ℕ) (i : ℕ), i < (SD1 beats w).length →
      (SD1 beats w).getD i 1 = 0 →
        (clampSD (SD1 beats w) (SD2 beats w)).1.getD i 0 = 1 ∧
        (clampSD (SD1 beats w) (SD2 beats w)).2.getD i 0 = 1) ∧
    (∀ (k : ℚ) (N w : ℕ), 1 ≤ w →
      ∀ i, i < (CSI (List.replicate N k) w false).length →
        (CSI (List.replicate N k) w false).getD i 0 = 1) := by
  constructor
  · intro beats w i hi h0
    have hlen : (SD2 beats w).length = (SD1 beats w).length := by
      simp [SD1, SD2, SD1var, SD2var]
    rw [List.getD_eq_getElem _ _ hi] at h0
    constructor
    · rw [clampSD]
      rw [List.getD_eq_getElem _ _ (by simp only [List.length_map, List.length_zip]; omega),
        List.getElem_map, List.getElem_zip, if_pos h0]
    · rw [clampSD]
      rw [List.getD_eq_getElem _ _ (by simpa using hi), List.getElem_map, if_pos h0]
  · intro k N w hw i hi
    rw [CSI_replicate k N w hw] at hi ⊢
    simp only [List.length_replicate] at hi
    rw [List.getD_eq_getElem _ _ (by simpa using hi), List.getElem_replicate]

/-- Concrete instance of `SD1_zero_clamp_and_constant_CSI` on the constant
beat-interval signal `[2, 2, 2]` with window size 2. -/
theorem SD1_zero_clamp_and_constant_CSI_witness :
    ((clampSD (SD1 (List.replicate 3 (2 : ℚ)) 2) (SD2 (List.replicate 3 (2 : ℚ)) 2)).1.getD 0 0 = 1 ∧
      (clampSD (SD1 (List.replicate 3 (2 : ℚ)) 2) (SD2 (List.replicate 3 (2 : ℚ)) 2)).2.getD 0 0 = 1) ∧
      (CSI (List.replicate 3 (2 : ℚ)) 2 false).getD 0 0 = 1 :=
  ⟨SD1_zero_clamp_and_constant_CSI.1 (List.replicate 3 2) 2 0
      (by rw [SD1_replicate 2 3 2 (by decide)]; decide)
      (by rw [SD1_replicate 2 3 2 (by decide)]; rfl),
    SD1_zero_clamp_and_constant_CSI.2 2 3 2 (by decide) 0
      (by rw [CSI_replicate 2 3 2 (by decide)]; decide)⟩

end SUDEP
